import Mathlib

/-!
Shallow embedding of the lift-simulation program (subsystem_2/subsystem2.py).

Numeric conventions: Python floats are modelled as real numbers, Python ints
as naturals (clock ticks, floor numbers, capacities) or integers where a
subtraction or the stored arrival schedule needs them.  A Python dict field
that is written later in the pipeline is an Option field, none until stamped.
-/

namespace OPT

/-- Passenger record: destination and building-arrival tick are the inputs,
the remaining fields are stamped by the engine as the passenger progresses. -/
structure Passenger where
  destination : ℕ
  timeStart : ℕ := 0
  timeLobby : Option ℕ := none
  liftId : Option ℕ := none
  timeEnterLift : Option ℕ := none
  timeDeparture : Option ℕ := none
  timeTravelling : Option ℝ := none
  timeArrival : Option ℕ := none

/-- Kinematic and sizing parameters of a lift, fixed at construction. -/
structure LiftParams where
  capacity : ℕ
  vmax : ℝ
  acc : ℝ
  td : ℝ
  df : ℝ

/-- Distance needed to reach maximum velocity (the field smv of Lift). -/
noncomputable def smv (L : LiftParams) : ℝ := L.vmax ^ 2 / (2 * L.acc)

/-- Time needed to reach maximum velocity (the field tmv of Lift). -/
noncomputable def tmv (L : LiftParams) : ℝ := L.vmax / L.acc

/-- Lift.travel_time with its three-way branch kept exactly as in the source:
trapezoidal profile, triangular profile, and the raise ValueError branch
(modelled as an error result). -/
noncomputable def travel_timeE (L : LiftParams) (n : ℝ) : Except Unit ℝ :=
  let dist := L.df * n
  if dist > 2 * smv L then
    Except.ok (2 * tmv L + (dist - 2 * smv L) / L.vmax + 2 * L.td)
  else if dist ≤ 2 * smv L then
    Except.ok (2 * L.td + 2 * Real.sqrt (dist / L.acc))
  else
    Except.error ()

/-- Total travel-time function: the two live branches of Lift.travel_time.
The lemma travel_timeE_eq_ok shows the error branch of the source is
unreachable, so this function agrees with travel_timeE everywhere. -/
noncomputable def travel_timeFn (L : LiftParams) (n : ℝ) : ℝ :=
  let dist := L.df * n
  if dist > 2 * smv L then
    2 * tmv L + (dist - 2 * smv L) / L.vmax + 2 * L.td
  else
    2 * L.td + 2 * Real.sqrt (dist / L.acc)

/-- Mutable state of a single Lift (the fields of Lift.__init__ that the
engine reads or writes; the printing flag is omitted). -/
structure LiftState where
  id : Option ℕ := none
  params : LiftParams
  capacity_threshold : ℝ
  available : Bool := true
  arrival_time : ℤ := 0
  passengers : List Passenger := []
  passenger_travel_times : List ℝ := []
  rtt : Option ℝ := none
  queue : List Passenger := []
  loc_history : List (ℝ × ℕ) := [(0, 0)]
  history_queue_length : List ℕ := []

/-- Lift.__init__: fresh lift, available, everything empty. -/
def initLift (id : Option ℕ) (P : LiftParams) (ct : ℝ) : LiftState :=
  { id := id, params := P, capacity_threshold := ct }

/-- Comparison used by update_trip_times: sort passengers by destination. -/
def destLE (p q : Passenger) : Bool := p.destination ≤ q.destination

/-- Accumulated result of the visiting loop of Lift.update_trip_times. -/
structure TripResult where
  stamped : List Passenger
  times : List ℝ
  locs : List (ℝ × ℕ)
  finalTime : ℝ
  finalPrev : ℕ

/-- Body of the for-loop of Lift.update_trip_times: walk the (sorted)
passengers, accumulating elapsed time, stamping each passenger with its
cumulative travel time and recording a location sample at each stop. -/
noncomputable def tripLoop (L : LiftParams) (clock : ℕ) (time : ℝ) (prev : ℕ) :
    List Passenger → TripResult
  | [] => { stamped := [], times := [], locs := [], finalTime := time, finalPrev := prev }
  | p :: ps =>
      let t := time + travel_timeFn L ((p.destination : ℝ) - (prev : ℝ))
      let r := tripLoop L clock t p.destination ps
      { r with stamped := { p with timeTravelling := some t } :: r.stamped,
               times := t :: r.times,
               locs := (t + (clock : ℝ), p.destination) :: r.locs }

/-- Lift.update_trip_times: sort the boarded passengers by destination
(Python sorted is a stable merge sort), visit each destination from floor 0
accumulating travel_time, then add the return leg to floor 0.  Returns the
updated lift state together with the round-trip time. -/
noncomputable def update_trip_times (s : LiftState) (clock : ℕ) : LiftState × ℝ :=
  let sortedPs := s.passengers.mergeSort destLE
  let r := tripLoop s.params clock 0 0 sortedPs
  let rtt := r.finalTime + travel_timeFn s.params |(0 : ℝ) - (r.finalPrev : ℝ)|
  ({ s with passengers := r.stamped,
            passenger_travel_times := s.passenger_travel_times ++ r.times,
            loc_history := s.loc_history ++ [((clock : ℝ), 0)] ++ r.locs ++ [(rtt + (clock : ℝ), 0)] },
   rtt)

/-- Lift.depart: become unavailable, stamp each boarded passenger with the
departure time, run the round-trip computation, and schedule the return as
the ceiling of clock + rtt. -/
noncomputable def depart (s : LiftState) (clock : ℕ) : LiftState :=
  let s1 := { s with available := false,
                     passengers := s.passengers.map fun p => { p with timeDeparture := some clock } }
  let r := update_trip_times s1 clock
  { r.1 with rtt := some r.2, arrival_time := ⌈(clock : ℝ) + r.2⌉ }

/-- Lift.add_passenger: board only when there is room and the lift is
available; report success as a Bool, leaving the state untouched on failure. -/
def add_passenger (s : LiftState) (p : Passenger) : Bool × LiftState :=
  if s.passengers.length < s.params.capacity ∧ s.available = true then
    (true, { s with passengers := s.passengers ++ [p] })
  else
    (false, s)

/-- Largest stamped enter-lift time among a list of passengers.  The source
reads p.time.enter_lift of the passenger maximising that key; a boarded
passenger always carries the stamp (it is written when check_departure
admits it), so the default 0 for a missing stamp is never exercised by the
driver. -/
def maxEnterLift (ps : List Passenger) : ℕ :=
  (ps.map fun p => p.timeEnterLift.getD 0).foldl max 0

/-- Blocks 2 and 3 of Lift.check_departure, reached when the queue-admission
block falls through: depart when the boarded count meets the capacity
threshold, otherwise depart when the most recently boarded passenger has
been waiting strictly more than 10 ticks. -/
noncomputable def departure_triggers (s : LiftState) (clock : ℕ) : LiftState :=
  if ((s.passengers.length : ℝ) ≥ s.capacity_threshold * (s.params.capacity : ℝ)) then
    depart s clock
  else if 0 < s.passengers.length then
    if (clock : ℤ) - (maxEnterLift s.passengers : ℤ) > 10 then depart s clock else s
  else
    s

/-- Lift.check_departure: when the queue is non-empty either admit its head
(stamping the enter-lift time) or, with no boarding room, depart at once; the
admission path falls through into the threshold and starvation checks of
departure_triggers, exactly as the source does (no early return after
boarding). -/
noncomputable def check_departure (s : LiftState) (clock : ℕ) : LiftState :=
  match s.queue with
  | [] => departure_triggers s clock
  | p :: rest =>
      if s.passengers.length < s.params.capacity then
        let p1 := { p with timeEnterLift := some clock }
        departure_triggers (add_passenger { s with queue := rest } p1).2 clock
      else
        depart s clock

/-- Lift.check_arrival: on the exact scheduled tick, stamp every boarded
passenger with the arrival time, clear the boarded list, become available
and return the completed batch; on any other tick return an empty batch and
leave the state untouched. -/
def check_arrival (s : LiftState) (current_time : ℕ) : List Passenger × LiftState :=
  if (current_time : ℤ) = s.arrival_time then
    let completed := s.passengers.map fun p => { p with timeArrival := some current_time }
    (completed, { s with passengers := [], available := true })
  else
    ([], s)

/-- Lift.queue_passenger: stamp the lobby time and owning lift and append to
the FIFO queue, unconditionally. -/
def queue_passenger (s : LiftState) (p : Passenger) (clock : ℕ) : LiftState :=
  { s with queue := s.queue ++ [{ p with timeLobby := some clock, liftId := s.id }] }

/-- Lift.get_avg_floor: average destination of the passengers the next
admitted passenger would travel with (see the source for the case split). -/
def get_avg_floor (s : LiftState) : ℚ :=
  let running_order := s.passengers ++ s.queue
  let total := running_order.length
  if total = 0 then 0
  else if total < s.params.capacity then
    ((running_order.map fun p => p.destination).sum : ℚ) / (total : ℚ)
  else
    let rem := total % s.params.capacity
    if rem = 0 then 0
    else
      let relevant_ps := running_order.drop (total - rem)
      ((relevant_ps.map fun p => p.destination).sum : ℚ) / (relevant_ps.length : ℚ)

/-- Lift.update: record the current queue length into the history. -/
def update (s : LiftState) : LiftState :=
  { s with history_queue_length := s.history_queue_length ++ [s.queue.length] }

/-- Python runtime values as far as Lift.set_capacity_threshold can observe
them: a float object carrying a real, the type object float itself, or
anything else. -/
inductive PyVal where
  | num (x : ℝ)
  | typeFloat
  | other

/-- Identity test against the type object float: this is what the Python
expression testing whether ct is the object float computes.  It is true only
for the type object itself, never for a float value such as 0.5. -/
def isTheFloatTypeObject : PyVal → Bool
  | PyVal.typeFloat => true
  | _ => false

/-- Lift.set_capacity_threshold, translated branch for branch.  The source
guards with an identity test of ct against the type object float (not an
isinstance check), raising TypeError whenever the test fails; only then does
it range-check the value.  Comparing the type object float against a number
would itself raise in Python, modelled by the last error case. -/
noncomputable def set_capacity_threshold (s : LiftState) (ct : PyVal) :
    Except String LiftState :=
  if isTheFloatTypeObject ct = false then
    Except.error "TypeError: Capacity threshold value must be a float."
  else
    match ct with
    | PyVal.num x =>
        if 0 ≤ x ∧ x ≤ 1 then
          Except.ok { s with capacity_threshold := x }
        else
          Except.error "ValueError: Value of capacity threshold must be between 0 and 1 inclusive."
    | _ => Except.error "TypeError: comparison between type object and int"

/-- Per-lift body of Simulation.step: record the queue length, then run
check_departure when available and check_arrival otherwise, returning the
new lift state and the batch of completed passengers. -/
noncomputable def lift_tick (s : LiftState) (clock : ℕ) : LiftState × List Passenger :=
  let s0 := update s
  if s0.available then
    (check_departure s0 clock, [])
  else
    ((check_arrival s0 clock).2, (check_arrival s0 clock).1)

/-- Iterated per-lift stepping of Simulation.step starting at the given
clock value: each tick runs lift_tick and then the clock advances by one,
exactly as the driver loop does. -/
noncomputable def lift_run (s : LiftState) (clock : ℕ) : ℕ → LiftState
  | 0 => s
  | k + 1 => lift_run (lift_tick s clock).1 (clock + 1) k

/-- Round-trip time of a visit sequence: starting from floor prev, the
travel time to each destination in order, plus the final return leg to
floor 0.  This is the reference recurrence the loop of update_trip_times is
proved to compute. -/
noncomputable def roundTripTime (L : LiftParams) (prev : ℕ) : List ℕ → ℝ
  | [] => travel_timeFn L |(0 : ℝ) - (prev : ℝ)|
  | n :: rest => travel_timeFn L ((n : ℝ) - (prev : ℝ)) + roundTripTime L n rest

/-- Cumulative elapsed time at each stop of a visit sequence, starting from
floor prev with already-elapsed time t. -/
noncomputable def cumTimes (L : LiftParams) (prev : ℕ) (t : ℝ) : List ℕ → List ℝ
  | [] => []
  | n :: rest =>
      let t1 := t + travel_timeFn L ((n : ℝ) - (prev : ℝ))
      t1 :: cumTimes L n t1 rest

/-- Forget the trip stamps a departure writes onto a passenger, keeping the
identifying fields; used to state sort stability of update_trip_times. -/
def stripTrip (p : Passenger) : Passenger :=
  { p with timeTravelling := none }

/-- Capacity invariant of a lift: the boarded count never exceeds capacity. -/
abbrev boarded_le_capacity (s : LiftState) : Prop :=
  s.passengers.length ≤ s.params.capacity

/-- Shared concrete parameter set used by the witness instances below. -/
def P0 : LiftParams := { capacity := 10, vmax := 5, acc := 1, td := 0, df := 4 }

lemma travel_timeE_eq_ok (L : LiftParams) (n : ℝ) :
    travel_timeE L n = Except.ok (travel_timeFn L n) := by
  unfold travel_timeE travel_timeFn
  by_cases h : L.df * n > 2 * smv L
  · simp [h]
  · simp [h, not_lt.mp h]

lemma tripLoop_stamped_length (L : LiftParams) (clock : ℕ) (ps : List Passenger) :
    ∀ (t : ℝ) (prev : ℕ), (tripLoop L clock t prev ps).stamped.length = ps.length := by
  induction ps with
  | nil => intro t prev; rfl
  | cons p ps ih => intro t prev; simp [tripLoop, ih]

lemma update_trip_times_passengers_length (s : LiftState) (c : ℕ) :
    (update_trip_times s c).1.passengers.length = s.passengers.length := by
  simp [update_trip_times, tripLoop_stamped_length]

lemma update_trip_times_available (s : LiftState) (c : ℕ) :
    (update_trip_times s c).1.available = s.available := rfl

lemma update_trip_times_queue (s : LiftState) (c : ℕ) :
    (update_trip_times s c).1.queue = s.queue := rfl

lemma depart_available (s : LiftState) (c : ℕ) : (depart s c).available = false := rfl

lemma depart_queue (s : LiftState) (c : ℕ) : (depart s c).queue = s.queue := rfl

lemma depart_passengers_length (s : LiftState) (c : ℕ) :
    (depart s c).passengers.length = s.passengers.length := by
  show (update_trip_times _ c).1.passengers.length = _
  rw [update_trip_times_passengers_length]
  simp

lemma departure_triggers_passengers_length (s : LiftState) (c : ℕ) :
    (departure_triggers s c).passengers.length = s.passengers.length := by
  unfold departure_triggers
  split_ifs <;> simp [depart_passengers_length]

lemma depart_params (s : LiftState) (c : ℕ) : (depart s c).params = s.params := rfl

lemma departure_triggers_params (s : LiftState) (c : ℕ) :
    (departure_triggers s c).params = s.params := by
  unfold departure_triggers
  split_ifs <;> rfl

lemma add_passenger_pos (s : LiftState) (p : Passenger)
    (h : s.passengers.length < s.params.capacity ∧ s.available = true) :
    add_passenger s p = (true, { s with passengers := s.passengers ++ [p] }) := by
  unfold add_passenger
  rw [if_pos h]

lemma add_passenger_neg (s : LiftState) (p : Passenger)
    (h : ¬(s.passengers.length < s.params.capacity ∧ s.available = true)) :
    add_passenger s p = (false, s) := by
  unfold add_passenger
  rw [if_neg h]

lemma add_passenger_params (s : LiftState) (p : Passenger) :
    (add_passenger s p).2.params = s.params := by
  unfold add_passenger
  split_ifs <;> rfl

lemma add_passenger_length_le (s : LiftState) (p : Passenger)
    (h : s.passengers.length ≤ s.params.capacity) :
    (add_passenger s p).2.passengers.length ≤ s.params.capacity := by
  by_cases hc : s.passengers.length < s.params.capacity ∧ s.available = true
  · rw [add_passenger_pos s p hc]
    simpa using hc.1
  · rw [add_passenger_neg s p hc]
    exact h

/-- C4: for every lift state and tick, check_arrival returns a non-empty
batch only when the tick equals the scheduled arrival time; on equality it
stamps every boarded passenger with the arrival time, clears the boarded
list, sets available to true and returns exactly the previously boarded
passengers; on inequality it returns an empty batch and leaves the state
unchanged. -/
theorem check_arrival_spec (s : LiftState) (t : ℕ) :
    (((t : ℤ) = s.arrival_time →
        (check_arrival s t).1 = s.passengers.map (fun p => { p with timeArrival := some t }) ∧
        (check_arrival s t).2 = { s with passengers := [], available := true }) ∧
     ((t : ℤ) ≠ s.arrival_time → check_arrival s t = ([], s)) ∧
     ((check_arrival s t).1 ≠ [] → (t : ℤ) = s.arrival_time)) := by
  by_cases h : (t : ℤ) = s.arrival_time
  · refine ⟨fun _ => ?_, fun hne => absurd h hne, fun _ => h⟩
    simp [check_arrival, h]
  · refine ⟨fun he => absurd he h, fun _ => ?_, fun hne => ?_⟩
    · simp [check_arrival, h]
    · exact absurd (by simp [check_arrival, h]) hne

/-- Concrete instance for the check_arrival specification. -/
def liftC4 : LiftState :=
  { params := P0, capacity_threshold := 0.8, available := false, arrival_time := 7,
    passengers := [{ destination := 3 }] }

/-- Witness for C4: at the scheduled tick the single boarded passenger comes
back stamped and the lift becomes available; one tick later nothing happens. -/
theorem check_arrival_spec_witness :
    (check_arrival liftC4 7).1 = [{ destination := 3, timeArrival := some 7 }] ∧
    (check_arrival liftC4 7).2.available = true ∧
    check_arrival liftC4 8 = ([], liftC4) := by
  have h7 := (check_arrival_spec liftC4 7).1 (by decide)
  have h8 := (check_arrival_spec liftC4 8).2.1 (by decide)
  refine ⟨?_, ?_, h8⟩
  · rw [h7.1]; rfl
  · rw [h7.2]

/-- C5: the boarded count never exceeds capacity: the invariant holds for a
freshly constructed lift and is preserved by queue_passenger, add_passenger,
check_departure, depart and check_arrival; add_passenger succeeds exactly
when there is room and the lift is available, appending the passenger, and
fails leaving the state unchanged otherwise; check_departure never boards
when the lift is already at capacity. -/
theorem capacity_invariant :
    (∀ id P ct, boarded_le_capacity (initLift id P ct)) ∧
    (∀ s p clock, boarded_le_capacity s → boarded_le_capacity (queue_passenger s p clock)) ∧
    (∀ s p, boarded_le_capacity s → boarded_le_capacity (add_passenger s p).2) ∧
    (∀ s p, ((add_passenger s p).1 = true ↔
        s.passengers.length < s.params.capacity ∧ s.available = true)) ∧
    (∀ s p, (add_passenger s p).1 = true →
        (add_passenger s p).2.passengers = s.passengers ++ [p]) ∧
    (∀ s p, (add_passenger s p).1 = false → (add_passenger s p).2 = s) ∧
    (∀ s clock, boarded_le_capacity s → boarded_le_capacity (check_departure s clock)) ∧
    (∀ s clock, s.params.capacity ≤ s.passengers.length →
        (check_departure s clock).passengers.length = s.passengers.length) ∧
    (∀ s clock, boarded_le_capacity s → boarded_le_capacity (depart s clock)) ∧
    (∀ s t, boarded_le_capacity s → boarded_le_capacity (check_arrival s t).2) := by
  have hdep : ∀ (s : LiftState) (clock : ℕ), boarded_le_capacity s →
      boarded_le_capacity (depart s clock) := by
    intro s clock h
    show (depart s clock).passengers.length ≤ (depart s clock).params.capacity
    rw [depart_passengers_length, depart_params]
    exact h
  refine ⟨fun id P ct => Nat.zero_le _, fun s p clock h => h, ?_, ?_, ?_, ?_, ?_, ?_, hdep, ?_⟩
  · intro s p h
    show (add_passenger s p).2.passengers.length ≤ (add_passenger s p).2.params.capacity
    rw [add_passenger_params]
    exact add_passenger_length_le s p h
  · intro s p
    by_cases hc : s.passengers.length < s.params.capacity ∧ s.available = true
    · simp [add_passenger_pos s p hc, hc]
    · simp [add_passenger_neg s p hc, hc]
  · intro s p h
    by_cases hc : s.passengers.length < s.params.capacity ∧ s.available = true
    · rw [add_passenger_pos s p hc]
    · rw [add_passenger_neg s p hc] at h
      simp at h
  · intro s p h
    by_cases hc : s.passengers.length < s.params.capacity ∧ s.available = true
    · rw [add_passenger_pos s p hc] at h
      simp at h
    · rw [add_passenger_neg s p hc]
  · intro s clock h
    show (check_departure s clock).passengers.length ≤ (check_departure s clock).params.capacity
    unfold check_departure
    cases hq : s.queue with
    | nil =>
        dsimp only
        rw [departure_triggers_passengers_length, departure_triggers_params]
        exact h
    | cons p rest =>
        dsimp only
        split_ifs with hlt
        · rw [departure_triggers_passengers_length, departure_triggers_params,
            add_passenger_params]
          exact add_passenger_length_le { s with queue := rest }
            { p with timeEnterLift := some clock } (le_of_lt hlt)
        · rw [depart_passengers_length, depart_params]
          exact h
  · intro s clock hfull
    unfold check_departure
    cases hq : s.queue with
    | nil =>
        dsimp only
        rw [departure_triggers_passengers_length]
    | cons p rest =>
        dsimp only
        rw [if_neg (by omega : ¬s.passengers.length < s.params.capacity)]
        exact depart_passengers_length s clock
  · intro s t h
    show (check_arrival s t).2.passengers.length ≤ (check_arrival s t).2.params.capacity
    unfold check_arrival
    split_ifs with he
    · simp
    · exact h

/-- Concrete instance for the capacity invariant. -/
def liftC5 : LiftState :=
  { params := P0, capacity_threshold := 0.8,
    passengers := [{ destination := 2, timeEnterLift := some 0 }],
    queue := [{ destination := 6 }] }

/-- Witness for C5: the invariant, instantiated on a concrete lift, is
preserved by a concrete check_departure and add_passenger call. -/
theorem capacity_invariant_witness :
    boarded_le_capacity (check_departure liftC5 3) ∧
    boarded_le_capacity (add_passenger liftC5 { destination := 9 }).2 := by
  have h := capacity_invariant
  exact ⟨h.2.2.2.2.2.2.1 liftC5 3 (by decide), h.2.2.1 liftC5 { destination := 9 } (by decide)⟩

/-- C9: get_avg_floor over the batch boarded ++ queue returns 0 on an empty
batch, the mean of all destinations when the batch is smaller than the
capacity, 0 when the batch size is a positive multiple of the capacity, and
otherwise the mean of the destinations of the last size-mod-capacity batch
entries. -/
theorem get_avg_floor_spec (s : LiftState) (hcap : 0 < s.params.capacity) :
    ((s.passengers ++ s.queue).length = 0 → get_avg_floor s = 0) ∧
    (0 < (s.passengers ++ s.queue).length →
      (s.passengers ++ s.queue).length < s.params.capacity →
      get_avg_floor s =
        (((s.passengers ++ s.queue).map fun p => p.destination).sum : ℚ) /
          ((s.passengers ++ s.queue).length : ℚ)) ∧
    (0 < (s.passengers ++ s.queue).length →
      s.params.capacity ∣ (s.passengers ++ s.queue).length → get_avg_floor s = 0) ∧
    (s.params.capacity ≤ (s.passengers ++ s.queue).length →
      ¬s.params.capacity ∣ (s.passengers ++ s.queue).length →
      get_avg_floor s =
        ((((s.passengers ++ s.queue).map fun p => p.destination).drop
            ((s.passengers ++ s.queue).length -
              (s.passengers ++ s.queue).length % s.params.capacity)).sum : ℚ) /
          (((s.passengers ++ s.queue).length % s.params.capacity : ℕ) : ℚ)) := by
  refine ⟨?_, ?_, ?_, ?_⟩
  · intro h0
    simp only [get_avg_floor]
    rw [if_pos h0]
  · intro hpos hlt
    simp only [get_avg_floor]
    rw [if_neg (by omega), if_pos hlt]
  · intro hpos hdvd
    have hle : s.params.capacity ≤ (s.passengers ++ s.queue).length := Nat.le_of_dvd hpos hdvd
    have hmod : (s.passengers ++ s.queue).length % s.params.capacity = 0 :=
      Nat.mod_eq_zero_of_dvd hdvd
    simp only [get_avg_floor]
    rw [if_neg (by omega), if_neg (by omega), if_pos hmod]
  · intro hge hndvd
    have hmod : (s.passengers ++ s.queue).length % s.params.capacity ≠ 0 := by
      intro h
      exact hndvd (Nat.dvd_of_mod_eq_zero h)
    simp only [get_avg_floor]
    rw [if_neg (by omega), if_neg (by omega), if_neg hmod]
    rw [List.map_drop, List.length_drop,
      Nat.sub_sub_self (Nat.mod_le (s.passengers ++ s.queue).length s.params.capacity)]
    congr 1
    rw [Nat.cast_list_sum, List.map_drop, List.map_map]
    rfl

/-- Concrete parameter set with capacity 4 for the averaging witnesses. -/
def P4 : LiftParams := { capacity := 4, vmax := 5, acc := 1, td := 0, df := 4 }

/-- Concrete lift whose batch destinations are 3, 3, 3, 3, 7. -/
def liftC9a : LiftState :=
  { params := P4, capacity_threshold := 0.8,
    passengers := [{ destination := 3 }, { destination := 3 }],
    queue := [{ destination := 3 }, { destination := 3 }, { destination := 7 }] }

/-- Concrete lift whose batch destinations are 3, 3, 3, 3. -/
def liftC9b : LiftState :=
  { params := P4, capacity_threshold := 0.8,
    passengers := [{ destination := 3 }, { destination := 3 }],
    queue := [{ destination := 3 }, { destination := 3 }] }

/-- Witness for C9: with capacity 4, batch destinations 3, 3, 3, 3, 7 give
average 7 and batch destinations 3, 3, 3, 3 give 0. -/
theorem get_avg_floor_spec_witness :
    get_avg_floor liftC9a = 7 ∧ get_avg_floor liftC9b = 0 := by
  have ha := (get_avg_floor_spec liftC9a (by decide)).2.2.2 (by decide) (by decide)
  have hb := (get_avg_floor_spec liftC9b (by decide)).2.2.1 (by decide) (by decide)
  refine ⟨?_, hb⟩
  rw [ha]
  norm_num [liftC9a, P4]

lemma smv_nonneg (L : LiftParams) (ha : 0 < L.acc) : 0 ≤ smv L :=
  div_nonneg (sq_nonneg _) (by linarith)

lemma sqrt_two_smv (L : LiftParams) (hv : 0 < L.vmax) (ha : 0 < L.acc) :
    Real.sqrt (2 * smv L / L.acc) = tmv L := by
  have hne : L.acc ≠ 0 := ne_of_gt ha
  have h1 : 2 * smv L / L.acc = (L.vmax / L.acc) ^ 2 := by
    unfold smv
    field_simp
    ring
  rw [h1, Real.sqrt_sq (by positivity)]
  rfl

lemma travel_timeFn_mono (L : LiftParams) (hv : 0 < L.vmax) (ha : 0 < L.acc)
    {x y : ℝ} (h : L.df * x ≤ L.df * y) :
    travel_timeFn L x ≤ travel_timeFn L y := by
  unfold travel_timeFn
  by_cases hx : L.df * x > 2 * smv L <;> by_cases hy : L.df * y > 2 * smv L
  · rw [if_pos hx, if_pos hy]
    have h2 : (L.df * x - 2 * smv L) / L.vmax ≤ (L.df * y - 2 * smv L) / L.vmax :=
      (div_le_div_iff_of_pos_right hv).mpr (by linarith)
    linarith
  · exact absurd hx (by have := not_lt.mp hy; intro hx; linarith)
  · rw [if_neg hx, if_pos hy]
    have hxle : L.df * x ≤ 2 * smv L := not_lt.mp hx
    have h1 : Real.sqrt (L.df * x / L.acc) ≤ tmv L := by
      rw [← sqrt_two_smv L hv ha]
      exact Real.sqrt_le_sqrt ((div_le_div_iff_of_pos_right ha).mpr hxle)
    have h2 : 0 ≤ (L.df * y - 2 * smv L) / L.vmax := div_nonneg (by linarith) (le_of_lt hv)
    linarith
  · rw [if_neg hx, if_neg hy]
    have h1 : Real.sqrt (L.df * x / L.acc) ≤ Real.sqrt (L.df * y / L.acc) :=
      Real.sqrt_le_sqrt ((div_le_div_iff_of_pos_right ha).mpr h)
    linarith

lemma travel_timeFn_zero (L : LiftParams) (ha : 0 < L.acc) :
    travel_timeFn L 0 = 2 * L.td := by
  unfold travel_timeFn
  have hsmv : 0 ≤ smv L := smv_nonneg L ha
  rw [mul_zero, if_neg (by linarith : ¬(0 : ℝ) > 2 * smv L)]
  rw [zero_div, Real.sqrt_zero, mul_zero, add_zero]

/-- C6: the trapezoidal and triangular branches of travel_time are exhaustive
for every floor count n at least 0 when the floor height is non-negative, so
the result is always the value of the two live branches and the raising third
branch is unreachable. -/
theorem travel_time_third_branch_unreachable (L : LiftParams) (hdf : 0 ≤ L.df) (n : ℕ) :
    travel_timeE L (n : ℝ) = Except.ok (travel_timeFn L (n : ℝ)) ∧
    travel_timeE L (n : ℝ) ≠ Except.error () :=
  ⟨travel_timeE_eq_ok L (n : ℝ), by rw [travel_timeE_eq_ok L (n : ℝ)]; simp⟩

/-- Witness for C6 at the concrete parameters P0 and three floors. -/
theorem travel_time_third_branch_unreachable_witness :
    travel_timeE P0 ((3 : ℕ) : ℝ) = Except.ok (travel_timeFn P0 ((3 : ℕ) : ℝ)) ∧
    travel_timeE P0 ((3 : ℕ) : ℝ) ≠ Except.error () :=
  travel_time_third_branch_unreachable P0 (by norm_num [P0]) 3

/-- C7: with positive maximum velocity and acceleration, non-negative door
time and floor height, travel_time is monotonically non-decreasing over
integer floor counts, and travel_time of zero floors is twice the door
time. -/
theorem travel_time_monotone_and_zero (L : LiftParams)
    (hv : 0 < L.vmax) (ha : 0 < L.acc) (htd : 0 ≤ L.td) (hdf : 0 ≤ L.df) :
    (∀ m n : ℕ, m ≤ n →
      ∀ t1 t2, travel_timeE L (m : ℝ) = Except.ok t1 →
        travel_timeE L (n : ℝ) = Except.ok t2 → t1 ≤ t2) ∧
    travel_timeE L ((0 : ℕ) : ℝ) = Except.ok (2 * L.td) := by
  constructor
  · intro m n hmn t1 t2 h1 h2
    rw [travel_timeE_eq_ok] at h1 h2
    obtain rfl : travel_timeFn L (m : ℝ) = t1 := Except.ok.inj h1
    obtain rfl : travel_timeFn L (n : ℝ) = t2 := Except.ok.inj h2
    exact travel_timeFn_mono L hv ha
      (mul_le_mul_of_nonneg_left (Nat.cast_le.mpr hmn) hdf)
  · rw [travel_timeE_eq_ok, Nat.cast_zero, travel_timeFn_zero L ha]

/-- Witness for C7 at the concrete parameters P0. -/
theorem travel_time_monotone_and_zero_witness :
    (∀ m n : ℕ, m ≤ n →
      ∀ t1 t2, travel_timeE P0 (m : ℝ) = Except.ok t1 →
        travel_timeE P0 (n : ℝ) = Except.ok t2 → t1 ≤ t2) ∧
    travel_timeE P0 ((0 : ℕ) : ℝ) = Except.ok (2 * P0.td) :=
  travel_time_monotone_and_zero P0 (by norm_num [P0]) (by norm_num [P0])
    (by norm_num [P0]) (by norm_num [P0])

/-- Concrete lift refuting the longest-waiting reading of the starvation
trigger: two boarded passengers who entered the lift at ticks 0 and 10,
an empty waiting queue, capacity 10 and threshold 0.8. -/
def liftC1 : LiftState :=
  { params := P0, capacity_threshold := 0.8,
    passengers := [{ destination := 3, timeEnterLift := some 0 },
                   { destination := 6, timeEnterLift := some 10 }] }

/-- Counterexample to C1: at clock 12 the queue is empty, the boarded count
2 is positive and below the threshold 0.8 times 10 = 8, and the
longest-waiting boarded passenger (entered at tick 0) has waited 12 > 10
ticks, so the claim predicts a departure; yet check_departure leaves the
lift unchanged and available, because the source keys the timeout on the
passenger with the largest enter-lift time. -/
theorem starvation_longest_wait_counterexample :
    liftC1.queue = [] ∧
    (liftC1.passengers.map fun p => p.timeEnterLift) = [some 0, some 10] ∧
    ((liftC1.passengers.length : ℝ) < liftC1.capacity_threshold * (liftC1.params.capacity : ℝ)) ∧
    0 < liftC1.passengers.length ∧
    ((12 : ℤ) - ((0 : ℕ) : ℤ) > 10) ∧
    check_departure liftC1 12 = liftC1 ∧
    (check_departure liftC1 12).available = true := by
  have hment : check_departure liftC1 12 = departure_triggers liftC1 12 := rfl
  have hth : ¬((liftC1.passengers.length : ℝ) ≥
      liftC1.capacity_threshold * (liftC1.params.capacity : ℝ)) := by
    norm_num [liftC1, P0]
  have hwait : ¬(((12 : ℕ) : ℤ) - (maxEnterLift liftC1.passengers : ℤ) > 10) := by decide
  have heq : check_departure liftC1 12 = liftC1 := by
    rw [hment]
    unfold departure_triggers
    rw [if_neg hth, if_pos (by decide : 0 < liftC1.passengers.length), if_neg hwait]
  refine ⟨rfl, rfl, by norm_num [liftC1, P0], by decide, by decide, heq, ?_⟩
  rw [heq]
  rfl

/-- C1 amended: with an empty queue, a positive boarded count below the
capacity threshold and the lift available, check_departure departs exactly
when the wait of the most recently boarded passenger (clock minus the
largest enter-lift time over boarded passengers) exceeds 10 ticks. -/
theorem starvation_most_recent_amended (s : LiftState) (clock : ℕ)
    (hav : s.available = true) (hq : s.queue = [])
    (hth : (s.passengers.length : ℝ) < s.capacity_threshold * (s.params.capacity : ℝ))
    (hpos : 0 < s.passengers.length) :
    ((check_departure s clock).available = false ↔
      (clock : ℤ) - (maxEnterLift s.passengers : ℤ) > 10) := by
  unfold check_departure
  rw [hq]
  dsimp only
  unfold departure_triggers
  rw [if_neg (not_le.mpr hth), if_pos hpos]
  by_cases hw : (clock : ℤ) - (maxEnterLift s.passengers : ℤ) > 10
  · rw [if_pos hw]
    simp [depart_available, hw]
  · rw [if_neg hw]
    simp [hav, hw]

/-- Witness for the amended C1 at the concrete lift liftC1 and clock 12. -/
theorem starvation_most_recent_amended_witness :
    ((check_departure liftC1 12).available = false ↔
      (12 : ℤ) - (maxEnterLift liftC1.passengers : ℤ) > 10) :=
  starvation_most_recent_amended liftC1 12 rfl rfl (by norm_num [liftC1, P0]) (by decide)

/-- Parameter set with capacity 1 for the admission fall-through examples. -/
def P1 : LiftParams := { capacity := 1, vmax := 5, acc := 1, td := 0, df := 4 }

/-- Available lift with one queued passenger, capacity 1 and threshold 1. -/
def liftC2 : LiftState :=
  { params := P1, capacity_threshold := 1,
    queue := [{ destination := 3 }] }

/-- State of liftC2 right after the queue head is admitted at clock 0. -/
def liftC2after : LiftState :=
  { params := P1, capacity_threshold := 1,
    passengers := [{ destination := 3, timeEnterLift := some 0 }] }

/-- Counterexample to C2: liftC2 is available with a non-empty queue and
room on board, so the claim says check_departure admits the head and
returns without evaluating the departure triggers that tick; but the call
both admits the passenger and departs (available becomes false), because
the source falls through into the threshold check after boarding. -/
theorem admission_no_return_counterexample :
    liftC2.available = true ∧
    liftC2.queue = [{ destination := 3 }] ∧
    liftC2.passengers.length < liftC2.params.capacity ∧
    (check_departure liftC2 0).queue = [] ∧
    (check_departure liftC2 0).available = false := by
  have hred : check_departure liftC2 0 = departure_triggers liftC2after 0 := rfl
  have hth : ((liftC2after.passengers.length : ℝ) ≥
      liftC2after.capacity_threshold * (liftC2after.params.capacity : ℝ)) := by
    norm_num [liftC2after, P1]
  have hdep : departure_triggers liftC2after 0 = depart liftC2after 0 := by
    unfold departure_triggers
    rw [if_pos hth]
  refine ⟨rfl, rfl, by decide, ?_, ?_⟩
  · rw [hred, hdep, depart_queue]
    rfl
  · rw [hred, hdep, depart_available]

lemma maxEnterLift_append_last (l : List Passenger) (c : ℕ) (p : Passenger)
    (hp : p.timeEnterLift = some c) : c ≤ maxEnterLift (l ++ [p]) := by
  unfold maxEnterLift
  rw [List.map_append, List.foldl_append]
  simp [hp]

/-- C2 amended: for every available lift whose queue is non-empty and whose
boarded count is below capacity, check_departure pops the queue head and
boards it with the enter-lift time stamped to the clock, but then still
evaluates the departure triggers in the same call: it departs that same
tick exactly when the new boarded count meets the capacity threshold (the
starvation trigger cannot fire, since the passenger just admitted has a
zero wait), and only when it does not depart is the boarded list exactly
the old one with the stamped head appended.  At most one admission happens
per call. -/
theorem admission_falls_through_amended (s : LiftState) (p : Passenger)
    (rest : List Passenger) (clock : ℕ)
    (hav : s.available = true)
    (hq : s.queue = p :: rest)
    (hroom : s.passengers.length < s.params.capacity) :
    ((check_departure s clock).queue = rest) ∧
    ((check_departure s clock).available = false ↔
      (((s.passengers.length : ℝ) + 1) ≥
        s.capacity_threshold * (s.params.capacity : ℝ))) ∧
    ((check_departure s clock).available = true →
      (check_departure s clock).passengers =
        s.passengers ++ [{ p with timeEnterLift := some clock }]) := by
  unfold check_departure
  rw [hq]
  dsimp only
  rw [if_pos hroom]
  rw [add_passenger_pos { s with queue := rest } { p with timeEnterLift := some clock }
    ⟨hroom, hav⟩]
  set s2 : LiftState :=
    { s with queue := rest,
             passengers := s.passengers ++ [{ p with timeEnterLift := some clock }] } with hs2
  have hlen : (s2.passengers.length : ℝ) = (s.passengers.length : ℝ) + 1 := by
    rw [hs2]
    push_cast [List.length_append, List.length_singleton]
    ring
  unfold departure_triggers
  by_cases hth : (((s.passengers.length : ℝ) + 1) ≥
      s.capacity_threshold * (s.params.capacity : ℝ))
  · rw [if_pos (by rw [hlen]; exact hth)]
    refine ⟨by rw [depart_queue], by simp [depart_available, hth], ?_⟩
    intro habs
    rw [depart_available] at habs
    exact absurd habs (by simp)
  · rw [if_neg (by rw [hlen]; exact hth)]
    have hnw : ¬((clock : ℤ) - (maxEnterLift s2.passengers : ℤ) > 10) := by
      have hge : clock ≤ maxEnterLift s2.passengers :=
        maxEnterLift_append_last s.passengers clock _ rfl
      omega
    rw [if_pos (by simp [hs2] : 0 < s2.passengers.length), if_neg hnw]
    refine ⟨rfl, ?_, fun _ => rfl⟩
    simp [hav, hth]

/-- Available lift with capacity 10, threshold 0.8 and one queued
passenger, for the amended C2 witness. -/
def liftC2w : LiftState :=
  { params := P0, capacity_threshold := 0.8,
    queue := [{ destination := 5 }] }

/-- Witness for the amended C2: admitting the only queued passenger of a
big lift does not reach the threshold, so the lift boards and stays. -/
theorem admission_falls_through_amended_witness :
    ((check_departure liftC2w 4).queue = ([] : List Passenger)) ∧
    ((check_departure liftC2w 4).available = false ↔
      (((liftC2w.passengers.length : ℝ) + 1) ≥
        liftC2w.capacity_threshold * (liftC2w.params.capacity : ℝ))) ∧
    ((check_departure liftC2w 4).available = true →
      (check_departure liftC2w 4).passengers =
        liftC2w.passengers ++ [{ destination := 5, timeEnterLift := some 4 }]) :=
  admission_falls_through_amended liftC2w { destination := 5 } [] 4 rfl rfl (by decide)

/-- C3: set_capacity_threshold raises TypeError on every float argument,
in-range or not, because the source tests identity against the type object
float instead of an isinstance check; no call can ever update the
threshold with a float value, contradicting the documented contract that
in-range floats succeed. -/
theorem set_capacity_threshold_rejects_all_floats (s : LiftState) (x : ℝ) :
    set_capacity_threshold s (PyVal.num x) =
      Except.error "TypeError: Capacity threshold value must be a float." := rfl

lemma update_available (s : LiftState) : (update s).available = s.available := rfl

lemma update_arrival_time (s : LiftState) : (update s).arrival_time = s.arrival_time := rfl

lemma check_arrival_of_ne (s : LiftState) (t : ℕ) (h : (t : ℤ) ≠ s.arrival_time) :
    check_arrival s t = ([], s) := by
  unfold check_arrival
  rw [if_neg h]

lemma lift_run_stays_unavailable (k : ℕ) : ∀ (s : LiftState) (clock : ℕ),
    s.available = false → s.arrival_time < (clock : ℤ) →
    (lift_run s clock k).available = false := by
  induction k with
  | zero => intro s clock h _; exact h
  | succ k ih =>
      intro s clock h harr
      have h0 : ¬(update s).available = true := by
        rw [update_available, h]
        simp
      have hne : (clock : ℤ) ≠ (update s).arrival_time := by
        rw [update_arrival_time]
        omega
      show (lift_run (lift_tick s clock).1 (clock + 1) k).available = false
      have htick : (lift_tick s clock).1 = update s := by
        unfold lift_tick
        rw [if_neg h0, check_arrival_of_ne _ _ hne]
      rw [htick]
      exact ih (update s) (clock + 1) (by rw [update_available]; exact h)
        (by rw [update_arrival_time]; push_cast; omega)

lemma depart_empty_rtt_arrival (s : LiftState) (c : ℕ)
    (hp : s.passengers = []) (htd : s.params.td = 0) (ha : 0 < s.params.acc) :
    (depart s c).arrival_time = (c : ℤ) := by
  have h0 : travel_timeFn s.params |(0 : ℝ) - ((0 : ℕ) : ℝ)| = 2 * s.params.td := by
    norm_num
    exact travel_timeFn_zero s.params ha
  show (⌈(c : ℝ) + (update_trip_times _ c).2⌉ : ℤ) = (c : ℤ)
  unfold update_trip_times
  rw [hp]
  dsimp only [List.map_nil]
  rw [List.mergeSort_nil]
  dsimp only [tripLoop]
  rw [h0, htd]
  norm_num

lemma check_departure_empty_departs (s : LiftState) (c : ℕ)
    (hq : s.queue = []) (hp : s.passengers = [])
    (hct : s.capacity_threshold * (s.params.capacity : ℝ) = 0) :
    check_departure s c = depart s c := by
  unfold check_departure
  rw [hq]
  dsimp only
  unfold departure_triggers
  rw [if_pos (by rw [hp, hct]; simp)]

/-- C10: a lift that departs with round-trip time 0 (reachable with door
time 0, an empty boarded set and a zero capacity threshold) schedules its
arrival at the very tick it departed; since the driver only runs
check_arrival on strictly later ticks, the equality test never fires and
the lift stays unavailable for the rest of the run. -/
theorem zero_rtt_lift_never_returns (s : LiftState) (c : ℕ)
    (hav : s.available = true) (hq : s.queue = []) (hp : s.passengers = [])
    (htd : s.params.td = 0) (ha : 0 < s.params.acc)
    (hct : s.capacity_threshold * (s.params.capacity : ℝ) = 0) :
    ((lift_tick s c).1.available = false ∧
     (lift_tick s c).1.arrival_time = (c : ℤ)) ∧
    (∀ k, 1 ≤ k → (lift_run s c k).available = false) := by
  have htick : (lift_tick s c).1 = depart (update s) c := by
    unfold lift_tick
    rw [if_pos (by rw [update_available]; exact hav)]
    exact check_departure_empty_departs (update s) c hq hp hct
  have harr : (lift_tick s c).1.arrival_time = (c : ℤ) := by
    rw [htick]
    exact depart_empty_rtt_arrival (update s) c hp htd ha
  refine ⟨⟨by rw [htick]; exact depart_available _ _, harr⟩, ?_⟩
  intro k hk
  obtain ⟨j, rfl⟩ : ∃ j, k = j + 1 := ⟨k - 1, by omega⟩
  show (lift_run (lift_tick s c).1 (c + 1) j).available = false
  exact lift_run_stays_unavailable j _ (c + 1)
    (by rw [htick]; exact depart_available _ _)
    (by rw [harr]; push_cast; omega)

/-- Concrete lift for the zero round-trip witness: door time 0, threshold 0,
empty queue and boarded set. -/
def liftC10 : LiftState :=
  { params := P0, capacity_threshold := 0 }

/-- Witness for C10 at the concrete lift liftC10 and departure tick 5. -/
theorem zero_rtt_lift_never_returns_witness :
    (((lift_tick liftC10 5).1.available = false) ∧
     ((lift_tick liftC10 5).1.arrival_time = ((5 : ℕ) : ℤ))) ∧
    (∀ k, 1 ≤ k → (lift_run liftC10 5 k).available = false) :=
  zero_rtt_lift_never_returns liftC10 5 rfl rfl rfl (by norm_num [liftC10, P0])
    (by norm_num [liftC10, P0]) (by norm_num [liftC10, P0])

lemma destLE_trans : ∀ a b c : Passenger, destLE a b → destLE b c → destLE a c := by
  intro a b c h1 h2
  simp only [destLE, decide_eq_true_eq] at h1 h2 ⊢
  omega

lemma destLE_total : ∀ a b : Passenger, destLE a b || destLE b a := by
  intro a b
  simp only [destLE, Bool.or_eq_true, decide_eq_true_eq]
  omega

lemma natLE_trans : ∀ a b c : ℕ,
    decide (a ≤ b) = true → decide (b ≤ c) = true → decide (a ≤ c) = true := by
  intro a b c h1 h2
  simp only [decide_eq_true_eq] at h1 h2 ⊢
  omega

lemma natLE_total : ∀ a b : ℕ, (decide (a ≤ b) || decide (b ≤ a)) = true := by
  intro a b
  simp only [Bool.or_eq_true, decide_eq_true_eq]
  omega

lemma tripLoop_dest (L : LiftParams) (clock : ℕ) (ps : List Passenger) :
    ∀ (t : ℝ) (prev : ℕ),
      (tripLoop L clock t prev ps).stamped.map (fun p => p.destination)
        = ps.map fun p => p.destination := by
  induction ps with
  | nil => intro t prev; rfl
  | cons p ps ih => intro t prev; simp [tripLoop, ih]

lemma tripLoop_strip (L : LiftParams) (clock : ℕ) (ps : List Passenger) :
    ∀ (t : ℝ) (prev : ℕ),
      (tripLoop L clock t prev ps).stamped.map stripTrip = ps.map stripTrip := by
  induction ps with
  | nil => intro t prev; rfl
  | cons p ps ih =>
      intro t prev
      simp only [tripLoop, List.map_cons, ih]
      rfl

lemma tripLoop_times (L : LiftParams) (clock : ℕ) (ps : List Passenger) :
    ∀ (t : ℝ) (prev : ℕ),
      (tripLoop L clock t prev ps).stamped.map (fun p => p.timeTravelling)
        = (cumTimes L prev t (ps.map fun p => p.destination)).map some := by
  induction ps with
  | nil => intro t prev; rfl
  | cons p ps ih =>
      intro t prev
      simp only [tripLoop, cumTimes, List.map_cons, ih]

lemma tripLoop_rtt (L : LiftParams) (clock : ℕ) (ps : List Passenger) :
    ∀ (t : ℝ) (prev : ℕ),
      (tripLoop L clock t prev ps).finalTime
          + travel_timeFn L |(0 : ℝ) - ((tripLoop L clock t prev ps).finalPrev : ℝ)|
        = t + roundTripTime L prev (ps.map fun p => p.destination) := by
  induction ps with
  | nil => intro t prev; simp [tripLoop, roundTripTime]
  | cons p ps ih =>
      intro t prev
      simp only [tripLoop, roundTripTime, List.map_cons, ih]
      ring

lemma mergeSort_filter_dest (l : List Passenger) (k : ℕ) :
    (l.mergeSort destLE).filter (fun p => p.destination = k)
      = l.filter (fun p => p.destination = k) := by
  have hmem : ∀ p ∈ l.filter (fun p => p.destination = k), p.destination = k := by
    intro p hp
    simpa using (List.mem_filter.mp hp).2
  have hpair : (l.filter fun p => p.destination = k).Pairwise (fun a b => destLE a b) := by
    rw [List.pairwise_iff_forall_sublist]
    intro a b hab
    have ha := hmem a (hab.subset (by simp))
    have hb := hmem b (hab.subset (by simp))
    simp [destLE, ha, hb]
  have hsub : List.Sublist (l.filter fun p => p.destination = k) (l.mergeSort destLE) :=
    List.sublist_mergeSort destLE_trans destLE_total hpair (List.filter_sublist l)
  have hsub2 := hsub.filter (fun p => p.destination = k)
  rw [List.filter_filter] at hsub2
  rw [show (fun p : Passenger => (decide (p.destination = k) && decide (p.destination = k)))
      = (fun p : Passenger => decide (p.destination = k)) from
    funext fun p => Bool.and_self _] at hsub2
  have hperm : ((l.mergeSort destLE).filter (fun p => p.destination = k)).Perm
      (l.filter (fun p => p.destination = k)) :=
    (List.mergeSort_perm l destLE).filter _
  exact (hsub2.eq_of_length hperm.length_eq.symm).symm

/-- C8: update_trip_times visits boarded passengers in non-decreasing
destination order whatever the boarding order was (the resulting passenger
list is a permutation of the boarded list, sorted by destination, with ties
keeping their prior relative order), returns the round-trip time obtained
by accumulating travel_time over each consecutive leg from floor 0 through
the sorted stops and back to floor 0, and stamps every passenger with the
cumulative elapsed time at its own stop. -/
theorem update_trip_times_spec (s : LiftState) (clock : ℕ) :
    (((update_trip_times s clock).1.passengers.map fun p => p.destination).Sorted (· ≤ ·)) ∧
    (((update_trip_times s clock).1.passengers.map stripTrip).Perm
        (s.passengers.map stripTrip)) ∧
    (∀ k : ℕ,
      ((update_trip_times s clock).1.passengers.map stripTrip).filter
          (fun p => p.destination = k)
        = (s.passengers.map stripTrip).filter (fun p => p.destination = k)) ∧
    ((update_trip_times s clock).2
      = roundTripTime s.params 0
          ((s.passengers.map fun p => p.destination).mergeSort (· ≤ ·))) ∧
    (((update_trip_times s clock).1.passengers.map fun p => p.timeTravelling)
      = (cumTimes s.params 0 0
          ((s.passengers.map fun p => p.destination).mergeSort (· ≤ ·))).map some) := by
  have hps : (update_trip_times s clock).1.passengers
      = (tripLoop s.params clock 0 0 (s.passengers.mergeSort destLE)).stamped := rfl
  have hmsdest : (s.passengers.mergeSort destLE).map (fun p => p.destination)
      = (s.passengers.map fun p => p.destination).mergeSort (fun a b => decide (a ≤ b)) :=
    List.map_mergeSort (fun a _ b _ => rfl)
  have hmsstrip : (s.passengers.mergeSort destLE).map stripTrip
      = (s.passengers.map stripTrip).mergeSort destLE :=
    List.map_mergeSort (fun a _ b _ => rfl)
  refine ⟨?_, ?_, ?_, ?_, ?_⟩
  · rw [hps, tripLoop_dest, hmsdest]
    exact (List.sorted_mergeSort natLE_trans natLE_total _).imp
      (fun h => by simpa using h)
  · rw [hps, tripLoop_strip, hmsstrip]
    exact List.mergeSort_perm _ _
  · intro k
    rw [hps, tripLoop_strip, hmsstrip]
    have h := mergeSort_filter_dest (s.passengers.map stripTrip) k
    simpa [stripTrip] using h
  · show (tripLoop s.params clock 0 0 (s.passengers.mergeSort destLE)).finalTime
        + travel_timeFn s.params
            |(0 : ℝ) - ((tripLoop s.params clock 0 0 (s.passengers.mergeSort destLE)).finalPrev : ℝ)|
      = _
    rw [tripLoop_rtt, hmsdest, zero_add]
  · rw [hps, tripLoop_times, hmsdest]

end OPT
